import Mathlib

/-!
# Verification of the dimutils embedded shell dispatcher

A shallow embedding of the `pkg/shell` package of `dimutils` (files
`builtins.go` and the shell runner file containing `Run`, `runInteractive`,
`runPipedScript`, `runCommand`, `runScript`), together with the `shell`
subcommand of `cmd/dimutils/commands.go` that maps a returned error to the
process exit code.

The external parser (`mvdan.cc/sh/v3/syntax`) and runner
(`mvdan.cc/sh/v3/interp`) are treated as opaque collaborators: a parser is a
function from accumulated source text to a three-way parse result
(complete / incomplete / invalid, mirroring `syntax.IsIncomplete`), and a
runner is a function from a parsed program to a three-way run result
(nil error / `interp.ExitStatus` error / other error, mirroring
`interp.IsExitStatus`).
-/

namespace Dimutils

/-- The result of `runner.Run` on a parsed program, as classified by the Go
code: `ok` is a nil error, `exitStatus n` is an error for which
`interp.IsExitStatus` returns true with status `n` (a `uint8`), and
`failure msg` is any other non-nil error.  The same three-way split models
the `error` returned by a builtin handler or by the exec handler. -/
inductive RunResult where
  | ok
  | exitStatus (n : Nat)
  | failure (msg : String)
deriving DecidableEq, Repr

/-- The result of `parser.Parse` on accumulated source text: a parsed
program, an error for which `syntax.IsIncomplete` holds (carrying its
message), or any other parse error (carrying its message). -/
inductive ParseResult (Prog : Type) where
  | complete (p : Prog)
  | incomplete (msg : String)
  | invalid (msg : String)
deriving DecidableEq, Repr

/-- An opaque parser/runner pair, the two collaborators the shell package
receives from `mvdan.cc/sh/v3`. -/
structure Interp (Prog : Type) where
  parse : String → ParseResult Prog
  run : Prog → RunResult

/-- Observable events of one shell session: prompts written to standard
output, lines written to the error stream, programs handed to the runner,
and script-file opens/closes. -/
inductive Event (Prog : Type) where
  | printPrompt (s : String)
  | errLine (s : String)
  | runProg (p : Prog)
  | fileOpened (name : String)
  | fileClosed (name : String)
deriving DecidableEq, Repr

/-- How one of the mode functions ends: `exited n` models a call to
`os.Exit(n)` (the whole process terminates at once), `returned e` models the
function returning error `e` (`none` is a nil error) to its caller. -/
inductive Outcome where
  | exited (code : Nat)
  | returned (err : Option String)
deriving DecidableEq, Repr

/-- The key set of the `builtins` map of `builtins.go` (the map's values,
the handler functions, are modelled abstractly by `ExecEnv`). -/
def builtins : List String :=
  ["gitaskop", "eventdiff", "unexpect", "serve", "ebcdic", "cbxxml2regex",
   "regex2json", "tandum", "mkgchat", "togchat", "jq", "yq", "kubectl",
   "databricks", "make"]

/-- Events produced by one call of the exec handler. -/
inductive ExecEvent where
  | builtinCall (name : String) (args : List String)
  | externalExec (args : List String)
deriving DecidableEq, Repr

/-- The behaviour of the two collaborators the exec handler can reach: the
outcome of invoking a builtin handler with the remaining arguments, and the
outcome of `interp.DefaultExecHandler` on the full argv (which depends on
the search path, so it is part of the environment). -/
structure ExecEnv where
  runBuiltin : String → List String → RunResult
  runExternal : List String → RunResult

/-- The handler returned by `createExecHandler` of `builtins.go`: an empty
argv returns nil immediately; a command name present in `builtins` invokes
that builtin with `args[1:]`; otherwise the full argv goes to the default
(external-process) handler.  Besides the Go function's returned error we
record which of the two paths was taken. -/
def createExecHandler (env : ExecEnv) (args : List String) :
    List ExecEvent × RunResult :=
  match args with
  | [] => ([], RunResult.ok)
  | cmdName :: rest =>
      if builtins.contains cmdName then
        ([ExecEvent.builtinCall cmdName rest], env.runBuiltin cmdName rest)
      else
        ([ExecEvent.externalExec (cmdName :: rest)],
          env.runExternal (cmdName :: rest))

/-- The environment seen by `interp.DefaultExecHandler`: whether `argv[0]`
can be located on the search path, the exit status the spawned child would
return, and how many bytes the child writes to the session's standard
streams. -/
structure ProcWorld where
  lookupOk : String → Bool
  exitCode : List String → Nat
  outputBytes : List String → Nat

/-- Modelled from `mvdan.cc/sh/v3/interp.DefaultExecHandler`, the external
collaborator invoked on the non-builtin path of `createExecHandler`.  Its
single parameter is `killTimeout time.Duration` — the grace period between
interrupt and kill signals after context cancellation — not an output
limit; the child's standard streams are connected directly to the session's
streams, so every byte the child writes is forwarded and no output-capture
ceiling exists.  The first component of the result is the number of bytes
forwarded; the second is the handler's returned error (`127` for a command
that cannot be located, the child's exit status otherwise). -/
def DefaultExecHandler (killTimeout : Nat) (w : ProcWorld)
    (args : List String) : Nat × RunResult :=
  match args with
  | [] => (0, RunResult.ok)
  | name :: rest =>
      if w.lookupOk name then
        (w.outputBytes (name :: rest),
          if w.exitCode (name :: rest) = 0 then RunResult.ok
          else RunResult.exitStatus (w.exitCode (name :: rest)))
      else (0, RunResult.exitStatus 127)

/-- The primary interactive prompt, `const prompt = "dim > "`. -/
def prompt : String := "dim > "

/-- The read-parse-run loop body of `runInteractive`, viewed over the list
of lines still to be read from standard input (`scanner.Text()` strips the
newline; the loop appends the line and a `'\n'` to the accumulated
`strings.Builder` `src` before parsing).  An `interp.ExitStatus` error from
`runner.Run` calls `os.Exit`; any other error prints a `runtime error` line
and continues; a parse error that is not incomplete prints a `parse error`
line, resets the buffer and continues; an incomplete parse keeps the buffer
and prints the secondary prompt `"> "`. -/
def runInteractiveLoop {Prog : Type} (I : Interp Prog) :
    String → List String → List (Event Prog) × Outcome
  | _, [] => ([], Outcome.returned none)
  | src, line :: rest =>
      match I.parse (src ++ line ++ "\n") with
      | ParseResult.incomplete _ =>
          let r := runInteractiveLoop I (src ++ line ++ "\n") rest
          (Event.printPrompt "> " :: r.1, r.2)
      | ParseResult.invalid msg =>
          let r := runInteractiveLoop I "" rest
          (Event.errLine ("parse error: " ++ msg)
            :: Event.printPrompt prompt :: r.1, r.2)
      | ParseResult.complete p =>
          match I.run p with
          | RunResult.exitStatus n => ([Event.runProg p], Outcome.exited n)
          | RunResult.failure msg =>
              let r := runInteractiveLoop I "" rest
              (Event.runProg p :: Event.errLine ("runtime error: " ++ msg)
                :: Event.printPrompt prompt :: r.1, r.2)
          | RunResult.ok =>
              let r := runInteractiveLoop I "" rest
              (Event.runProg p :: Event.printPrompt prompt :: r.1, r.2)

/-- `runInteractive`: prints the primary prompt once, then enters the loop
with an empty buffer.  The model assumes no read error from the scanner, so
end of input returns nil. -/
def runInteractive {Prog : Type} (I : Interp Prog) (lines : List String) :
    List (Event Prog) × Outcome :=
  let r := runInteractiveLoop I "" lines
  (Event.printPrompt prompt :: r.1, r.2)

/-- `runPipedScript`: reads all of standard input eagerly; empty input
returns nil at once; otherwise parse once and run once, exiting the process
on an `interp.ExitStatus` error and returning a wrapped error otherwise. -/
def runPipedScript {Prog : Type} (I : Interp Prog) (input : String) :
    List (Event Prog) × Outcome :=
  if input.length = 0 then ([], Outcome.returned none)
  else
    match I.parse input with
    | ParseResult.incomplete msg =>
        ([], Outcome.returned (some ("parse error: " ++ msg)))
    | ParseResult.invalid msg =>
        ([], Outcome.returned (some ("parse error: " ++ msg)))
    | ParseResult.complete p =>
        match I.run p with
        | RunResult.exitStatus n => ([Event.runProg p], Outcome.exited n)
        | RunResult.failure msg =>
            ([Event.runProg p],
              Outcome.returned (some ("runtime error: " ++ msg)))
        | RunResult.ok => ([Event.runProg p], Outcome.returned none)

/-- `runCommand`: parse the supplied command string once and run it once;
`syntax.IsIncomplete` is not consulted here, so an incomplete parse is an
ordinary parse error. -/
def runCommand {Prog : Type} (I : Interp Prog) (command : String) :
    List (Event Prog) × Outcome :=
  match I.parse command with
  | ParseResult.incomplete msg =>
      ([], Outcome.returned (some ("parse error: " ++ msg)))
  | ParseResult.invalid msg =>
      ([], Outcome.returned (some ("parse error: " ++ msg)))
  | ParseResult.complete p =>
      match I.run p with
      | RunResult.exitStatus n => ([Event.runProg p], Outcome.exited n)
      | RunResult.failure msg =>
          ([Event.runProg p],
            Outcome.returned (some ("runtime error: " ++ msg)))
      | RunResult.ok => ([Event.runProg p], Outcome.returned none)

/-- The file system seen by `runScript`: whether `os.Open` succeeds on a
path and, when it does, the file's contents. -/
structure FileSys where
  openOk : String → Bool
  content : String → String

/-- `runScript`: open the named file (failure is a distinct
`opening script file` error), register `defer file.Close()`, parse the
contents, run.  Per the Go specification of `os.Exit`, the program
terminates immediately and deferred functions are *not* run, so on the
`interp.ExitStatus` path the deferred close never happens; on every
returning path the deferred close runs as the function returns. -/
def runScript {Prog : Type} (I : Interp Prog) (fs : FileSys)
    (filename : String) : List (Event Prog) × Outcome :=
  if fs.openOk filename then
    match I.parse (fs.content filename) with
    | ParseResult.incomplete msg =>
        ([Event.fileOpened filename, Event.fileClosed filename],
          Outcome.returned (some ("parse error: " ++ msg)))
    | ParseResult.invalid msg =>
        ([Event.fileOpened filename, Event.fileClosed filename],
          Outcome.returned (some ("parse error: " ++ msg)))
    | ParseResult.complete p =>
        match I.run p with
        | RunResult.exitStatus n =>
            ([Event.fileOpened filename, Event.runProg p], Outcome.exited n)
        | RunResult.failure msg =>
            ([Event.fileOpened filename, Event.runProg p,
              Event.fileClosed filename],
              Outcome.returned (some ("runtime error: " ++ msg)))
        | RunResult.ok =>
            ([Event.fileOpened filename, Event.runProg p,
              Event.fileClosed filename], Outcome.returned none)
  else ([], Outcome.returned (some ("opening script file: " ++ filename)))

/-- `shell.Run`: selects the session mode from the argument list and the
terminal state of standard input.  `stdinLines` is standard input seen as
scanner lines (interactive mode), `stdinAll` is the same input seen as one
eager read (piped mode).  The model takes `interp.New` to succeed, which it
does for the fixed options used. -/
def Run {Prog : Type} (I : Interp Prog) (fs : FileSys)
    (stdinIsTerminal : Bool) (stdinLines : List String) (stdinAll : String)
    (args : List String) : List (Event Prog) × Outcome :=
  if args.length = 0 then
    if stdinIsTerminal then runInteractive I stdinLines
    else runPipedScript I stdinAll
  else if args.length = 2 ∧ args.headI = "-c" then
    runCommand I (args.getD 1 "")
  else
    runScript I fs args.headI

/-- The `shell` subcommand of `cmd/dimutils/commands.go` around
`shell.Run`, extended to the whole-process exit code: an `os.Exit` inside a
mode function fixes the code; a non-nil returned error prints it and calls
`os.Exit(1)`; a nil return lets the process end normally with code 0. -/
def frontendExit : Outcome → Nat
  | Outcome.exited n => n
  | Outcome.returned none => 0
  | Outcome.returned (some _) => 1

/-- The external CLI entry points wrapped by the `jq`, `yq`, `kubectl` and
`databricks` builtins: `gojq`'s `cli.Run` reads the global `os.Args` and
returns an exit code; the three cobra-based commands see both the global
`os.Args` and the explicit argument list given to `SetArgs`, and return an
error. -/
structure CliWorld where
  jqRun : List String → Int
  yqExecute : List String → List String → Option String
  kubectlExecute : List String → List String → Option String
  databricksExecute : List String → List String → Option String

/-- `runJq` of `builtins.go`: save `os.Args`, set it to `"gojq"` followed
by the builtin's arguments, call `cli.Run`, and restore `os.Args` in a
deferred function that runs when the builtin returns (on the success and
the failure path alike).  The state passed and returned is `os.Args`. -/
def runJq (w : CliWorld) (osArgs : List String) (args : List String) :
    List String × RunResult :=
  let oldArgs := osArgs
  let exitCode := w.jqRun ("gojq" :: args)
  (oldArgs,
    if exitCode ≠ 0 then
      RunResult.failure ("jq exited with code " ++ toString exitCode)
    else RunResult.ok)

/-- `runYq` of `builtins.go`: same save/set/defer-restore pattern around
`yqcmd.New()`, `SetArgs(args)`, `Execute()`. -/
def runYq (w : CliWorld) (osArgs : List String) (args : List String) :
    List String × RunResult :=
  let oldArgs := osArgs
  let res := w.yqExecute ("yq" :: args) args
  (oldArgs,
    match res with
    | some msg => RunResult.failure msg
    | none => RunResult.ok)

/-- `runKubectl` of `builtins.go`: same pattern around
`kubectlcmd.NewDefaultKubectlCommand()`, `SetArgs(args)`, `Execute()`. -/
def runKubectl (w : CliWorld) (osArgs : List String) (args : List String) :
    List String × RunResult :=
  let oldArgs := osArgs
  let res := w.kubectlExecute ("kubectl" :: args) args
  (oldArgs,
    match res with
    | some msg => RunResult.failure msg
    | none => RunResult.ok)

/-- `runDatabricks` of `builtins.go`: same pattern around
`root.New(ctx)`, `SetArgs(args)`, `Execute()`. -/
def runDatabricks (w : CliWorld) (osArgs : List String)
    (args : List String) : List String × RunResult :=
  let oldArgs := osArgs
  let res := w.databricksExecute ("databricks" :: args) args
  (oldArgs,
    match res with
    | some msg => RunResult.failure msg
    | none => RunResult.ok)

/-- The source text accumulated by the interactive loop after reading the
given lines into an initially empty buffer. -/
def accumSrc : List String → String
  | [] => ""
  | l :: ls => l ++ "\n" ++ accumSrc ls

/-- A concrete parser/runner instance over `Prog := Nat`, used to witness
the theorems below: program `0` exits with status `7`, program `1` fails
with message `"boom"`, program `2` succeeds; `"{"` opens a construct closed
by `"}"`. -/
def testInterp : Interp Nat where
  parse s :=
    if s = "exit7\n" ∨ s = "exit7" then ParseResult.complete 0
    else if s = "fail\n" ∨ s = "fail" then ParseResult.complete 1
    else if s = "ok\n" ∨ s = "ok" then ParseResult.complete 2
    else if s = "\x7b\n" ∨ s = "\x7b\nok\n" then ParseResult.incomplete "unclosed"
    else if s = "\x7b\nok\n\x7d\n" then ParseResult.complete 2
    else ParseResult.invalid "syntax"
  run p :=
    if p = 0 then RunResult.exitStatus 7
    else if p = 1 then RunResult.failure "boom"
    else RunResult.ok

/-- A concrete file system used to witness the theorems below:
`script.sh` holds a program that exits with status 7, `bad.sh` holds
syntactically invalid text. -/
def testFs : FileSys where
  openOk name := name == "script.sh" || name == "bad.sh"
  content name :=
    if name = "script.sh" then "exit7"
    else if name = "bad.sh" then "bad" else ""

/-- A search-path world in which every external command is found, exits
with status 0, and writes one byte more than `2*1024*1024` to the session
streams. -/
def bigOutputWorld : ProcWorld where
  lookupOk _ := true
  exitCode _ := 0
  outputBytes _ := 2*1024*1024 + 1

end Dimutils

namespace Dimutils

/-- C1: a builtin name always dispatches to the builtin with `argv[1:]`,
never to the external executor, whatever `runExternal` would do. -/
theorem createExecHandler_builtin_shadows (env : ExecEnv) (name : String)
    (rest : List String) (h : builtins.contains name = true) :
    createExecHandler env (name :: rest)
        = ([ExecEvent.builtinCall name rest], env.runBuiltin name rest)
      ∧ ∀ a, ExecEvent.externalExec a ∉ (createExecHandler env (name :: rest)).1 := by
  have hm : name ∈ builtins := by simpa using h
  constructor
  · simp [createExecHandler, hm]
  · intro a
    simp [createExecHandler, hm]

theorem createExecHandler_builtin_shadows_witness :
    builtins.contains "jq" = true
    ∧ (createExecHandler
          { runBuiltin := fun _ _ => RunResult.ok,
            runExternal := fun _ => RunResult.failure "external ran" }
          ("jq" :: ["."])
        = ([ExecEvent.builtinCall "jq" ["."]], RunResult.ok)
      ∧ ∀ a, ExecEvent.externalExec a ∉
          (createExecHandler
            { runBuiltin := fun _ _ => RunResult.ok,
              runExternal := fun _ => RunResult.failure "external ran" }
            ("jq" :: ["."])).1) :=
  ⟨by decide,
    createExecHandler_builtin_shadows
      { runBuiltin := fun _ _ => RunResult.ok,
        runExternal := fun _ => RunResult.failure "external ran" }
      "jq" ["."] (by decide)⟩

/-- C7: an empty argv makes the exec handler return success at once, with
no builtin invoked and no external process spawned (no event at all). -/
theorem createExecHandler_empty_ok (env : ExecEnv) :
    createExecHandler env [] = ([], RunResult.ok) := rfl

/-- C5: mode selection of `shell.Run` is a function of the argument list
and the terminal state of standard input alone: no arguments selects
interactive mode on a terminal and piped-script mode otherwise; exactly
`["-c", s]` selects command-string mode on `s`; any other non-empty
argument list selects file-script mode on the first argument. -/
theorem Run_mode_selection {Prog : Type} (I : Interp Prog) (fs : FileSys)
    (lines : List String) (all : String) (args : List String) (t : Bool) :
    (args = [] → t = true → Run I fs t lines all args = runInteractive I lines)
    ∧ (args = [] → t = false → Run I fs t lines all args = runPipedScript I all)
    ∧ (∀ s, args = ["-c", s] → Run I fs t lines all args = runCommand I s)
    ∧ (args ≠ [] → ¬(args.length = 2 ∧ args.headI = "-c") →
        Run I fs t lines all args = runScript I fs args.headI) := by
  refine ⟨?_, ?_, ?_, ?_⟩
  · rintro rfl rfl; simp [Run]
  · rintro rfl rfl; simp [Run]
  · rintro s rfl; simp [Run]
  · intro hne hnot
    have h0 : args.length ≠ 0 := by
      simpa [List.length_eq_zero] using hne
    simp [Run, h0, hnot]

theorem Run_mode_selection_witness :
    Run testInterp testFs true ["ok"] "" []
        = runInteractive testInterp ["ok"]
    ∧ Run testInterp testFs false [] "ok\n" []
        = runPipedScript testInterp "ok\n"
    ∧ Run testInterp testFs false [] "" ["-c", "ok"]
        = runCommand testInterp "ok"
    ∧ Run testInterp testFs false [] "" ["script.sh"]
        = runScript testInterp testFs "script.sh" :=
  ⟨(Run_mode_selection testInterp testFs ["ok"] "" [] true).1 rfl rfl,
    (Run_mode_selection testInterp testFs [] "ok\n" [] false).2.1 rfl rfl,
    (Run_mode_selection testInterp testFs [] "" ["-c", "ok"] false).2.2.1
      "ok" rfl,
    (Run_mode_selection testInterp testFs [] "" ["script.sh"] false).2.2.2
      (by decide) (by decide)⟩

/-- C10: each of the four wrapped-CLI builtins restores the global
`os.Args` by its deferred function, so after the handler returns the
argument vector equals its value before the call, whatever the wrapped
CLI returned. -/
theorem wrapped_cli_restores_osArgs (w : CliWorld)
    (osArgs args : List String) :
    (runJq w osArgs args).1 = osArgs
    ∧ (runYq w osArgs args).1 = osArgs
    ∧ (runKubectl w osArgs args).1 = osArgs
    ∧ (runDatabricks w osArgs args).1 = osArgs :=
  ⟨rfl, rfl, rfl, rfl⟩

/-- C8: evaluation of the non-builtin path at an external command that is
found, exits 0 and writes `2*1024*1024 + 1` bytes: every byte is forwarded
to the session streams and the dispatcher returns plain success — no
resource-exhaustion failure exists, because the constant `2*1024*1024` is
passed to `DefaultExecHandler` as its kill-timeout duration, not as an
output ceiling. -/
theorem external_output_over_ceiling_silent_success :
    (DefaultExecHandler (2*1024*1024) bigOutputWorld ["somecmd"]).1
        = 2*1024*1024 + 1
    ∧ createExecHandler
        { runBuiltin := fun _ _ => RunResult.ok,
          runExternal := fun a =>
            (DefaultExecHandler (2*1024*1024) bigOutputWorld a).2 }
        ["somecmd"]
      = ([ExecEvent.externalExec ["somecmd"]], RunResult.ok) := by
  constructor
  · rfl
  · rfl

/-- C3: an ordinary run failure in interactive mode is printed as a
`runtime error` line on the error stream and the loop continues with an
empty buffer; the same failure in command-string mode makes `runCommand`
return a wrapped error — never an `os.Exit` outcome — which the frontend
turns into process exit code 1. -/
theorem ordinary_failure_continues_or_exit1 {Prog : Type}
    (I : Interp Prog) :
    (∀ (src line : String) (rest : List String) (p : Prog) (msg : String),
        I.parse (src ++ line ++ "\n") = ParseResult.complete p →
        I.run p = RunResult.failure msg →
        runInteractiveLoop I src (line :: rest)
          = (Event.runProg p :: Event.errLine ("runtime error: " ++ msg)
              :: Event.printPrompt prompt
              :: (runInteractiveLoop I "" rest).1,
             (runInteractiveLoop I "" rest).2))
    ∧ (∀ (cmd : String) (p : Prog) (msg : String),
        I.parse cmd = ParseResult.complete p →
        I.run p = RunResult.failure msg →
        runCommand I cmd
            = ([Event.runProg p],
               Outcome.returned (some ("runtime error: " ++ msg)))
          ∧ frontendExit (runCommand I cmd).2 = 1
          ∧ ∀ k, (runCommand I cmd).2 ≠ Outcome.exited k) := by
  constructor
  · intro src line rest p msg hp hr
    simp [runInteractiveLoop, hp, hr]
  · intro cmd p msg hp hr
    refine ⟨by simp [runCommand, hp, hr], ?_, ?_⟩
    · simp [runCommand, hp, hr, frontendExit]
    · intro k
      simp [runCommand, hp, hr]

theorem ordinary_failure_continues_or_exit1_witness :
    runInteractiveLoop testInterp "" ["fail"]
        = (Event.runProg 1 :: Event.errLine "runtime error: boom"
            :: Event.printPrompt prompt
            :: (runInteractiveLoop testInterp "" []).1,
           (runInteractiveLoop testInterp "" []).2)
    ∧ (runCommand testInterp "fail"
          = ([Event.runProg 1], Outcome.returned (some "runtime error: boom"))
        ∧ frontendExit (runCommand testInterp "fail").2 = 1
        ∧ ∀ k, (runCommand testInterp "fail").2 ≠ Outcome.exited k) :=
  ⟨(ordinary_failure_continues_or_exit1 testInterp).1 "" "fail" [] 1 "boom"
      (by decide) (by decide),
    (ordinary_failure_continues_or_exit1 testInterp).2 "fail" 1 "boom"
      (by decide) (by decide)⟩

/-- C6: a parse failure that is not incomplete discards the accumulated
buffer, reports a `parse error` line and continues with an empty buffer in
interactive mode; in piped-script, command-string and file-script mode the
same failure is fatal: the mode function returns the wrapped parse error
and the frontend exits 1. -/
theorem parse_invalid_handling {Prog : Type} (I : Interp Prog) :
    (∀ (src line : String) (rest : List String) (msg : String),
        I.parse (src ++ line ++ "\n") = ParseResult.invalid msg →
        runInteractiveLoop I src (line :: rest)
          = (Event.errLine ("parse error: " ++ msg)
              :: Event.printPrompt prompt
              :: (runInteractiveLoop I "" rest).1,
             (runInteractiveLoop I "" rest).2))
    ∧ (∀ (input msg : String), input.length ≠ 0 →
        I.parse input = ParseResult.invalid msg →
        runPipedScript I input
            = ([], Outcome.returned (some ("parse error: " ++ msg)))
          ∧ frontendExit (runPipedScript I input).2 = 1)
    ∧ (∀ (cmd msg : String),
        I.parse cmd = ParseResult.invalid msg →
        runCommand I cmd
            = ([], Outcome.returned (some ("parse error: " ++ msg)))
          ∧ frontendExit (runCommand I cmd).2 = 1)
    ∧ (∀ (fs : FileSys) (f msg : String), fs.openOk f = true →
        I.parse (fs.content f) = ParseResult.invalid msg →
        (runScript I fs f).2
            = Outcome.returned (some ("parse error: " ++ msg))
          ∧ frontendExit (runScript I fs f).2 = 1) := by
  refine ⟨?_, ?_, ?_, ?_⟩
  · intro src line rest msg hp
    simp [runInteractiveLoop, hp]
  · intro input msg hlen hp
    constructor
    · simp [runPipedScript, hlen, hp]
    · simp [runPipedScript, hlen, hp, frontendExit]
  · intro cmd msg hp
    constructor
    · simp [runCommand, hp]
    · simp [runCommand, hp, frontendExit]
  · intro fs f msg hopen hp
    constructor
    · simp [runScript, hopen, hp]
    · simp [runScript, hopen, hp, frontendExit]

theorem parse_invalid_handling_witness :
    runInteractiveLoop testInterp "" ["bad"]
        = (Event.errLine "parse error: syntax" :: Event.printPrompt prompt
            :: (runInteractiveLoop testInterp "" []).1,
           (runInteractiveLoop testInterp "" []).2)
    ∧ (runPipedScript testInterp "bad"
          = ([], Outcome.returned (some "parse error: syntax"))
        ∧ frontendExit (runPipedScript testInterp "bad").2 = 1)
    ∧ (runCommand testInterp "bad"
          = ([], Outcome.returned (some "parse error: syntax"))
        ∧ frontendExit (runCommand testInterp "bad").2 = 1)
    ∧ ((runScript testInterp testFs "bad.sh").2
          = Outcome.returned (some "parse error: syntax")
        ∧ frontendExit (runScript testInterp testFs "bad.sh").2 = 1) :=
  ⟨(parse_invalid_handling testInterp).1 "" "bad" [] "syntax" (by decide),
    (parse_invalid_handling testInterp).2.1 "bad" "syntax" (by decide)
      (by decide),
    (parse_invalid_handling testInterp).2.2.1 "bad" "syntax" (by decide),
    (parse_invalid_handling testInterp).2.2.2 testFs "bad.sh" "syntax"
      (by decide) (by decide)⟩

/-- Helper for the interactive conjunct of the explicit-termination claim:
if a program whose run result is an `interp.ExitStatus` error was handed to
the runner at any point of the loop, the loop ended right there with
`os.Exit` on that status. -/
theorem runInteractiveLoop_exitStatus_of_mem {Prog : Type}
    (I : Interp Prog) (p : Prog) (n : Nat)
    (hp : I.run p = RunResult.exitStatus n) :
    ∀ (lines : List String) (src : String),
      Event.runProg p ∈ (runInteractiveLoop I src lines).1 →
      (runInteractiveLoop I src lines).2 = Outcome.exited n := by
  intro lines
  induction lines with
  | nil =>
      intro src h
      simp [runInteractiveLoop] at h
  | cons line rest ih =>
      intro src h
      cases hpar : I.parse (src ++ line ++ "\n") with
      | incomplete m =>
          simp only [runInteractiveLoop, hpar] at h ⊢
          simp at h
          exact ih (src ++ line ++ "\n") h
      | invalid m =>
          simp only [runInteractiveLoop, hpar] at h ⊢
          simp at h
          exact ih "" h
      | complete q =>
          cases hrun : I.run q with
          | ok =>
              simp only [runInteractiveLoop, hpar, hrun] at h ⊢
              simp at h
              rcases h with h | h
              · subst h
                rw [hp] at hrun
                exact absurd hrun (by simp)
              · exact ih "" h
          | failure m =>
              simp only [runInteractiveLoop, hpar, hrun] at h ⊢
              simp at h
              rcases h with h | h
              · subst h
                rw [hp] at hrun
                exact absurd hrun (by simp)
              · exact ih "" h
          | exitStatus m =>
              simp only [runInteractiveLoop, hpar, hrun] at h ⊢
              simp at h
              subst h
              rw [hp] at hrun
              injection hrun with hnm
              rw [hnm]

/-- C2: in each of the four session modes, a run whose result is an
`interp.ExitStatus` error with status `n` ends the whole process with exit
code exactly `n` (in the model, the outcome `Outcome.exited n`). -/
theorem exitStatus_propagates_all_modes {Prog : Type} (I : Interp Prog)
    (p : Prog) (n : Nat) (hrun : I.run p = RunResult.exitStatus n) :
    (∀ (lines : List String) (src : String),
        Event.runProg p ∈ (runInteractiveLoop I src lines).1 →
        (runInteractiveLoop I src lines).2 = Outcome.exited n)
    ∧ (∀ input, input.length ≠ 0 →
        I.parse input = ParseResult.complete p →
        (runPipedScript I input).2 = Outcome.exited n)
    ∧ (∀ cmd, I.parse cmd = ParseResult.complete p →
        (runCommand I cmd).2 = Outcome.exited n)
    ∧ (∀ (fs : FileSys) (f : String), fs.openOk f = true →
        I.parse (fs.content f) = ParseResult.complete p →
        (runScript I fs f).2 = Outcome.exited n) := by
  refine ⟨runInteractiveLoop_exitStatus_of_mem I p n hrun, ?_, ?_, ?_⟩
  · intro input hlen hp
    simp [runPipedScript, hlen, hp, hrun]
  · intro cmd hp
    simp [runCommand, hp, hrun]
  · intro fs f hopen hp
    simp [runScript, hopen, hp, hrun]

theorem exitStatus_propagates_all_modes_witness :
    (runInteractiveLoop testInterp "" ["exit7"]).2 = Outcome.exited 7
    ∧ (runPipedScript testInterp "exit7").2 = Outcome.exited 7
    ∧ (runCommand testInterp "exit7").2 = Outcome.exited 7
    ∧ (runScript testInterp testFs "script.sh").2 = Outcome.exited 7 := by
  have h := exitStatus_propagates_all_modes testInterp 0 7 (by decide)
  exact ⟨h.1 ["exit7"] "" (by decide),
    h.2.1 "exit7" (by decide) (by decide),
    h.2.2.1 "exit7" (by decide),
    h.2.2.2 testFs "script.sh" (by decide) (by decide)⟩

/-- C9 counterexample: in file-script mode, the program of `script.sh`
signals explicit termination with status 7, the process exits with code 7,
and the deferred close of the opened script file has *not* run at that
point — `os.Exit` terminates the program immediately without running
deferred functions. -/
theorem runScript_exit_skips_deferred_close :
    (runScript testInterp testFs "script.sh").2 = Outcome.exited 7
    ∧ Event.fileClosed "script.sh"
        ∉ (runScript testInterp testFs "script.sh").1 := by
  decide

/-- C9 amended: when a script-file run signals explicit termination with
status `n`, the process exits with exactly code `n`, and the only events
are the file open and the program run — the deferred file close does not
run, because `os.Exit` bypasses deferred functions. -/
theorem runScript_exitStatus_no_close {Prog : Type} (I : Interp Prog)
    (fs : FileSys) (f : String) (p : Prog) (n : Nat)
    (hopen : fs.openOk f = true)
    (hparse : I.parse (fs.content f) = ParseResult.complete p)
    (hrun : I.run p = RunResult.exitStatus n) :
    runScript I fs f
      = ([Event.fileOpened f, Event.runProg p], Outcome.exited n) := by
  simp [runScript, hopen, hparse, hrun]

theorem runScript_exitStatus_no_close_witness :
    runScript testInterp testFs "script.sh"
      = ([Event.fileOpened "script.sh", Event.runProg 0],
         Outcome.exited 7) :=
  runScript_exitStatus_no_close testInterp testFs "script.sh" 0 7
    (by decide) (by decide) (by decide)

/-- One step of the interactive loop on an incomplete parse: the buffer is
kept, the secondary prompt is emitted, and the loop proceeds to the next
line with the retained buffer. -/
theorem runInteractiveLoop_cons_incomplete {Prog : Type} (I : Interp Prog)
    (src line : String) (rest : List String) (m : String)
    (h : I.parse (src ++ line ++ "\n") = ParseResult.incomplete m) :
    runInteractiveLoop I src (line :: rest)
      = (Event.printPrompt "> "
          :: (runInteractiveLoop I (src ++ line ++ "\n") rest).1,
         (runInteractiveLoop I (src ++ line ++ "\n") rest).2) := by
  simp only [runInteractiveLoop, h]

/-- Helper for the multi-line claim, generalised over the buffer already
accumulated when the first of the given lines arrives: while every proper
prefix of the lines parses as incomplete, the loop only emits secondary
prompts; when the full accumulation parses and runs successfully, exactly
one program run happens, after the last line. -/
theorem runInteractiveLoop_incomplete_chain {Prog : Type}
    (I : Interp Prog) :
    ∀ (ls : List String) (src : String) (p : Prog), ls ≠ [] →
      (∀ i, i + 1 < ls.length →
        ∃ m, I.parse (src ++ accumSrc (ls.take (i + 1)))
          = ParseResult.incomplete m) →
      I.parse (src ++ accumSrc ls) = ParseResult.complete p →
      I.run p = RunResult.ok →
      runInteractiveLoop I src ls
        = (List.replicate (ls.length - 1) (Event.printPrompt "> ")
            ++ [Event.runProg p, Event.printPrompt prompt],
           Outcome.returned none) := by
  intro ls
  induction ls with
  | nil => intro src p h; exact absurd rfl h
  | cons l ls' ih =>
      intro src p _ hinc hfin hok
      by_cases hls' : ls' = []
      · subst hls'
        have heq : src ++ accumSrc [l] = src ++ l ++ "\n" := by
          simp [accumSrc, String.append_assoc, String.append_empty]
        rw [heq] at hfin
        simp [runInteractiveLoop, hfin, hok]
      · obtain ⟨m, hm⟩ := hinc 0 (by
          have h1 : 0 < ls'.length := List.length_pos.mpr hls'
          simp only [List.length_cons]
          omega)
        have hm' : I.parse (src ++ l ++ "\n") = ParseResult.incomplete m := by
          have heq : src ++ accumSrc ((l :: ls').take 1) = src ++ l ++ "\n" := by
            simp [accumSrc, String.append_assoc, String.append_empty]
          rwa [heq] at hm
        have ih' := ih (src ++ l ++ "\n") p hls'
          (fun i hi => by
            obtain ⟨m2, hm2⟩ := hinc (i + 1) (by
              simp only [List.length_cons] at hi ⊢
              omega)
            refine ⟨m2, ?_⟩
            have heq : src ++ accumSrc ((l :: ls').take (i + 2))
                = src ++ l ++ "\n" ++ accumSrc (ls'.take (i + 1)) := by
              simp [accumSrc, List.take_succ_cons, String.append_assoc]
            rwa [heq] at hm2)
          (by
            have heq : src ++ accumSrc (l :: ls')
                = src ++ l ++ "\n" ++ accumSrc ls' := by
              simp [accumSrc, String.append_assoc]
            rwa [heq] at hfin)
          hok
        obtain ⟨a, as, rfl⟩ : ∃ a as, ls' = a :: as := by
          cases ls' with
          | nil => exact absurd rfl hls'
          | cons a as => exact ⟨a, as, rfl⟩
        rw [runInteractiveLoop_cons_incomplete I src l (a :: as) m hm', ih']
        simp [List.replicate_succ]

/-- C4: feeding a multi-line construct one line at a time in interactive
mode, where every proper prefix of the accumulated buffer parses as
incomplete, retains the buffer, emits one secondary prompt per incomplete
parse, runs nothing before the construct is complete, and runs the
completed program exactly once. -/
theorem interactive_multiline_runs_once {Prog : Type} (I : Interp Prog)
    (ls : List String) (p : Prog) (hne : ls ≠ [])
    (hinc : ∀ i, i + 1 < ls.length →
      ∃ m, I.parse (accumSrc (ls.take (i + 1))) = ParseResult.incomplete m)
    (hfin : I.parse (accumSrc ls) = ParseResult.complete p)
    (hok : I.run p = RunResult.ok) :
    runInteractiveLoop I "" ls
      = (List.replicate (ls.length - 1) (Event.printPrompt "> ")
          ++ [Event.runProg p, Event.printPrompt prompt],
         Outcome.returned none) := by
  apply runInteractiveLoop_incomplete_chain I ls "" p hne
  · intro i hi
    obtain ⟨m, hm⟩ := hinc i hi
    exact ⟨m, by rwa [String.empty_append]⟩
  · rwa [String.empty_append]
  · exact hok

theorem interactive_multiline_runs_once_witness :
    runInteractiveLoop testInterp "" ["\x7b", "ok", "\x7d"]
      = (List.replicate 2 (Event.printPrompt "> ")
          ++ [Event.runProg 2, Event.printPrompt prompt],
         Outcome.returned none) :=
  interactive_multiline_runs_once testInterp ["\x7b", "ok", "\x7d"] 2
    (by decide)
    (fun i hi => ⟨"unclosed", by
      match i, hi with
      | 0, _ => decide
      | 1, _ => decide⟩)
    (by decide) (by decide)

end Dimutils
